import Mathlib

/-!
Verification of the AI task-assistant core (`backend/app/services/ai_service.py`
together with the enums of `backend/app/schemas.py`).

The Python code is shallowly embedded: Python values are the inductive `PyVal`
(finite Python ints and floats are both modelled as rationals, and the
non-finite floats NaN and ±Infinity — producible by `float("nan")` and by the
`NaN`/`Infinity` literals `json.loads` accepts — are explicit variants),
fallible Python code returns `Except PyErr`, and the generative-text backend is
modelled as an explicit parameter of type `Except PyErr String` (the text the
network call would produce, or the exception it would raise), together with a
Boolean availability flag mirroring `is_available`.
-/

namespace AITask

/-- Python exception classes that the embedded code can raise. -/
inductive PyErr where
  | typeError
  | valueError
  | jsonDecodeError
  | keyError
  | attributeError
  | timeoutError
  deriving Repr, DecidableEq

/-- Models `str(e)` on the exceptions above; only used to build the
`"Error: ..."` reasoning string of `prioritize_tasks`. -/
def errMsg : PyErr → String
  | PyErr.typeError => "TypeError"
  | PyErr.valueError => "ValueError"
  | PyErr.jsonDecodeError => "JSONDecodeError"
  | PyErr.keyError => "KeyError"
  | PyErr.attributeError => "AttributeError"
  | PyErr.timeoutError => "TimeoutError"

/-- Python values as they occur in this service: `None`, booleans, numbers
(finite ints and floats merged into `Rat`), the non-finite floats NaN and
±Infinity, strings, lists and string-keyed dicts. -/
inductive PyVal where
  | none : PyVal
  | bool : Bool → PyVal
  | num : Rat → PyVal
  | nan : PyVal
  | inf : PyVal
  | ninf : PyVal
  | str : String → PyVal
  | list : List PyVal → PyVal
  | dict : List (String × PyVal) → PyVal

/-- A Python float value: finite (as a rational), NaN, or ±Infinity. -/
inductive PyFloat where
  | finite : Rat → PyFloat
  | nan : PyFloat
  | inf : PyFloat
  | ninf : PyFloat

/-- The float as a `PyVal`. -/
def pyFloatVal : PyFloat → PyVal
  | PyFloat.finite q => PyVal.num q
  | PyFloat.nan => PyVal.nan
  | PyFloat.inf => PyVal.inf
  | PyFloat.ninf => PyVal.ninf

/-- Python `<` on floats: every comparison against NaN is `False`. -/
def pyFloatLt : PyFloat → PyFloat → Bool
  | PyFloat.finite a, PyFloat.finite b => a < b
  | PyFloat.nan, _ => false
  | _, PyFloat.nan => false
  | PyFloat.ninf, PyFloat.ninf => false
  | PyFloat.ninf, _ => true
  | _, PyFloat.ninf => false
  | PyFloat.inf, _ => false
  | PyFloat.finite _, PyFloat.inf => true

/-- CPython's two-argument `max(a, b)`: starts from `a` and replaces it only
when `b > a`, so `max(nan, x) = nan` — NaN survives. -/
def pyMax2 (a b : PyFloat) : PyFloat := if pyFloatLt a b then b else a

/-- CPython's two-argument `min(a, b)`: starts from `a` and replaces it only
when `b < a`, so `min(nan, x) = nan` — NaN survives. -/
def pyMin2 (a b : PyFloat) : PyFloat := if pyFloatLt b a then b else a

/-- Models Python's `v in l` for `l` a list of strings (as in
`data.get("priority") in valid_priorities`): `==` between a non-string and a
string is `False` in Python, so only a string value can be a member. -/
def isStrIn (v : PyVal) (l : List String) : Bool :=
  match v with
  | PyVal.str s => l.contains s
  | _ => false

/-- The left-brace character, written via its code point. -/
def lbrace : Char := '\x7b'

/-- The right-brace character, written via its code point. -/
def rbrace : Char := '\x7d'

/-- Python string slicing `s[:n]` (by code points, as Python slices `str`). -/
def strTake (s : String) (n : Nat) : String := String.mk (s.data.take n)

/-- Length of a sliceable Python value (`len`), used to state the title bound. -/
def pyLen : PyVal → Nat
  | PyVal.str s => s.data.length
  | PyVal.list l => l.length
  | _ => 0

/-- First binding of key `k` in an association list (Python dicts have unique
keys, so this is dict lookup). -/
def lookup (kvs : List (String × PyVal)) (k : String) : Option PyVal :=
  (kvs.find? (fun p => decide (p.1 = k))).map Prod.snd

/-- Models `obj.get(k, default)`: dict lookup with a default; any non-dict
receiver has no `get` attribute and raises `AttributeError`. -/
def pyGet (obj : PyVal) (k : String) (default : PyVal) : Except PyErr PyVal :=
  match obj with
  | PyVal.dict kvs => Except.ok ((lookup kvs k).getD default)
  | _ => Except.error PyErr.attributeError

/-- Models the slice `v[:n]`: defined on strings and lists, `TypeError`
otherwise (in particular `None[:n]` raises `TypeError`). -/
def pySliceTo (n : Nat) : PyVal → Except PyErr PyVal
  | PyVal.str s => Except.ok (PyVal.str (strTake s n))
  | PyVal.list l => Except.ok (PyVal.list (l.take n))
  | _ => Except.error PyErr.typeError

/-- Whitespace stripped by Python's `str.strip()` (ASCII part; the Unicode
whitespace code points are not modelled and no claim involves them). -/
def isPyWs (c : Char) : Bool :=
  c = ' ' || c = '\t' || c = '\n' || c = '\r' || c = '\x0b' || c = '\x0c'

/-- Models `str.strip()` on the character list. -/
def stripL (cs : List Char) : List Char :=
  (((cs.dropWhile isPyWs).reverse.dropWhile isPyWs)).reverse

/-- Decimal digits to a natural number. -/
def digitsToNat (l : List Char) : Nat :=
  l.foldl (fun n c => n * 10 + (c.toNat - 48)) 0

/-- Models `float(s)` on a string: optional surrounding whitespace, optional
sign, then either one of the case-insensitive word forms `nan`, `inf`,
`infinity` (giving the non-finite floats, with the sign of a NaN
unobservable), or decimal digits with optional fraction and exponent. Digit
underscores (accepted by Python between digits) are not modelled; they only
spell finite values, so the model at most turns a finite-valued run into a
`ValueError`, which no claim's truth depends on. -/
def parsePyFloat (s : String) : Option PyFloat :=
  let cs := stripL s.data
  let cs1 := if cs.take 1 = ['-'] || cs.take 1 = ['+'] then cs.drop 1 else cs
  let neg := cs.take 1 = ['-']
  if cs1.map Char.toLower = "nan".data then some PyFloat.nan
  else if cs1.map Char.toLower = "inf".data || cs1.map Char.toLower = "infinity".data then
    some (if neg then PyFloat.ninf else PyFloat.inf)
  else
    let ids := cs1.takeWhile Char.isDigit
    let cs2 := cs1.dropWhile Char.isDigit
    let fds := if cs2.take 1 = ['.'] then (cs2.drop 1).takeWhile Char.isDigit else []
    let cs3 := if cs2.take 1 = ['.'] then (cs2.drop 1).dropWhile Char.isDigit else cs2
    if ids = [] && fds = [] then Option.none
    else
      let base : Rat :=
        (digitsToNat ids : Rat) + (digitsToNat fds : Rat) / ((10 : Rat) ^ fds.length)
      if cs3 = [] then some (PyFloat.finite (if neg then -base else base))
      else if cs3.take 1 = ['e'] || cs3.take 1 = ['E'] then
        let cs4 := cs3.drop 1
        let eneg := cs4.take 1 = ['-']
        let cs5 := if cs4.take 1 = ['-'] || cs4.take 1 = ['+'] then cs4.drop 1 else cs4
        let eds := cs5.takeWhile Char.isDigit
        let cs6 := cs5.dropWhile Char.isDigit
        if eds = [] || cs6 ≠ [] then Option.none
        else
          let m : Rat :=
            if eneg then 1 / ((10 : Rat) ^ digitsToNat eds) else ((10 : Rat) ^ digitsToNat eds)
          some (PyFloat.finite (if neg then -(base * m) else base * m))
      else Option.none

/-- Models `float(v)` applied to a parsed-JSON value: numbers (finite or not)
pass through, booleans coerce to 0/1, strings are parsed — including the
`nan`/`inf` word forms, so `float("nan")` is NaN, not an error — with
`ValueError` on failure, and `None`, lists and dicts raise `TypeError`. -/
def pyFloat : PyVal → Except PyErr PyFloat
  | PyVal.num q => Except.ok (PyFloat.finite q)
  | PyVal.nan => Except.ok PyFloat.nan
  | PyVal.inf => Except.ok PyFloat.inf
  | PyVal.ninf => Except.ok PyFloat.ninf
  | PyVal.bool b => Except.ok (PyFloat.finite (if b then 1 else 0))
  | PyVal.str s =>
    match parsePyFloat s with
    | some f => Except.ok f
    | Option.none => Except.error PyErr.valueError
  | _ => Except.error PyErr.typeError

/-! ### A model of `json.loads`

The service decodes backend responses with Python's `json` module. `json.loads`
is standard-library code, so it is modelled here after the strict JSON grammar
that module implements: values are `null`, `true`, `false`, numbers, strings
with escapes, arrays and objects — plus the non-standard `NaN`, `Infinity` and
`-Infinity` literals Python's decoder accepts by default, which decode to the
non-finite float values. `\u` escapes take the code point directly (surrogate
pairs are not combined). Recursion is fuel-bounded with ample fuel.
-/

/-- JSON insignificant whitespace (exactly the four characters of RFC 8259,
which is what `json.loads` skips). -/
def isJsonWs (c : Char) : Bool :=
  c = ' ' || c = '\t' || c = '\n' || c = '\r'

/-- Hexadecimal digit value, for `\u` escapes. -/
def hexDigit? (c : Char) : Option Nat :=
  if c.isDigit then some (c.toNat - 48)
  else if 'a' ≤ c && c ≤ 'f' then some (c.toNat - 87)
  else if 'A' ≤ c && c ≤ 'F' then some (c.toNat - 55)
  else Option.none

/-- Body of a JSON string, after the opening quote: returns the decoded string
and the characters after the closing quote. Unescaped control characters are
rejected, as in `json.loads` strict mode. -/
def parseJString : Nat → List Char → Option (String × List Char)
  | 0, _ => Option.none
  | Nat.succ f, cs =>
    match cs with
    | [] => Option.none
    | '\"' :: rest => some ("", rest)
    | '\\' :: e :: rest =>
      let simple : Option (Char × List Char) :=
        if e = '\"' then some ('\"', rest)
        else if e = '\\' then some ('\\', rest)
        else if e = '/' then some ('/', rest)
        else if e = 'b' then some ('\x08', rest)
        else if e = 'f' then some ('\x0c', rest)
        else if e = 'n' then some ('\n', rest)
        else if e = 'r' then some ('\r', rest)
        else if e = 't' then some ('\t', rest)
        else Option.none
      (match simple with
       | some (c, rest2) =>
         (parseJString f rest2).map (fun p => (String.mk (c :: p.1.data), p.2))
       | Option.none =>
         if e = 'u' then
           match rest with
           | a :: b :: c :: d :: rest2 =>
             match hexDigit? a, hexDigit? b, hexDigit? c, hexDigit? d with
             | some x, some y, some z, some w =>
               let n := ((x * 16 + y) * 16 + z) * 16 + w
               (parseJString f rest2).map (fun p => (String.mk (Char.ofNat n :: p.1.data), p.2))
             | _, _, _, _ => Option.none
           | _ => Option.none
         else Option.none)
    | c :: rest =>
      if c.toNat < 32 then Option.none
      else (parseJString f rest).map (fun p => (String.mk (c :: p.1.data), p.2))

/-- A JSON number: optional minus, integer part without leading zeros, optional
fraction, optional exponent. Returns its rational value and the rest. -/
def parseJNumber (cs : List Char) : Option (Rat × List Char) :=
  let neg := cs.take 1 = ['-']
  let cs1 := if neg then cs.drop 1 else cs
  let ids := cs1.takeWhile Char.isDigit
  let cs2 := cs1.dropWhile Char.isDigit
  if ids = [] then Option.none
  else if 2 ≤ ids.length && ids.take 1 = ['0'] then Option.none
  else
    let fOk := cs2.take 1 = ['.'] && ((cs2.drop 1).takeWhile Char.isDigit) ≠ []
    let badF := cs2.take 1 = ['.'] && ((cs2.drop 1).takeWhile Char.isDigit) = []
    if badF then Option.none
    else
      let fds := if fOk then (cs2.drop 1).takeWhile Char.isDigit else []
      let cs3 := if fOk then (cs2.drop 1).dropWhile Char.isDigit else cs2
      let base : Rat :=
        (digitsToNat ids : Rat) + (digitsToNat fds : Rat) / ((10 : Rat) ^ fds.length)
      if cs3.take 1 = ['e'] || cs3.take 1 = ['E'] then
        let cs4 := cs3.drop 1
        let eneg := cs4.take 1 = ['-']
        let cs5 := if cs4.take 1 = ['-'] || cs4.take 1 = ['+'] then cs4.drop 1 else cs4
        let eds := cs5.takeWhile Char.isDigit
        let cs6 := cs5.dropWhile Char.isDigit
        if eds = [] then Option.none
        else
          let m : Rat :=
            if eneg then 1 / ((10 : Rat) ^ digitsToNat eds) else ((10 : Rat) ^ digitsToNat eds)
          some (if neg then -(base * m) else base * m, cs6)
      else some (if neg then -base else base, cs3)

/-- Insert-or-update of a key in an object under construction, keeping the
position of the first occurrence — Python dict semantics for duplicate keys. -/
def insertKV : List (String × PyVal) → String → PyVal → List (String × PyVal)
  | [], k, v => [(k, v)]
  | (k0, v0) :: rest, k, v =>
    if k0 = k then (k0, v) :: rest else (k0, v0) :: insertKV rest k v

mutual

/-- A JSON value, with leading whitespace; fuel-bounded. -/
def parseJValue : Nat → List Char → Option (PyVal × List Char)
  | 0, _ => Option.none
  | Nat.succ f, cs0 =>
    let cs := cs0.dropWhile isJsonWs
    if cs.take 4 = "null".data then some (PyVal.none, cs.drop 4)
    else if cs.take 4 = "true".data then some (PyVal.bool true, cs.drop 4)
    else if cs.take 5 = "false".data then some (PyVal.bool false, cs.drop 5)
    else if cs.take 3 = "NaN".data then some (PyVal.nan, cs.drop 3)
    else if cs.take 8 = "Infinity".data then some (PyVal.inf, cs.drop 8)
    else if cs.take 9 = "-Infinity".data then some (PyVal.ninf, cs.drop 9)
    else
      match cs with
      | [] => Option.none
      | c :: rest =>
        if c = '\"' then (parseJString (Nat.succ f) rest).map (fun p => (PyVal.str p.1, p.2))
        else if c = lbrace then
          let rest1 := rest.dropWhile isJsonWs
          if rest1.take 1 = [rbrace] then some (PyVal.dict [], rest1.drop 1)
          else parseJMembers f [] rest
        else if c = '[' then
          let rest1 := rest.dropWhile isJsonWs
          if rest1.take 1 = [']'] then some (PyVal.list [], rest1.drop 1)
          else parseJElements f [] rest
        else (parseJNumber cs).map (fun p => (PyVal.num p.1, p.2))

/-- Members of a JSON object, after the opening brace of a non-empty object
or after a comma. -/
def parseJMembers : Nat → List (String × PyVal) → List Char → Option (PyVal × List Char)
  | 0, _, _ => Option.none
  | Nat.succ f, acc, cs0 =>
    let cs := cs0.dropWhile isJsonWs
    match cs with
    | c :: rest =>
      if c = '\"' then
        match parseJString (Nat.succ f) rest with
        | some (k, cs2) =>
          (match (cs2.dropWhile isJsonWs) with
           | ':' :: cs4 =>
             match parseJValue f cs4 with
             | some (v, cs5) =>
               let acc2 := insertKV acc k v
               (match (cs5.dropWhile isJsonWs) with
                | ',' :: cs7 => parseJMembers f acc2 cs7
                | d :: cs8 =>
                  if d = rbrace then some (PyVal.dict acc2, cs8) else Option.none
                | [] => Option.none)
             | Option.none => Option.none
           | _ => Option.none)
        | Option.none => Option.none
      else Option.none
    | [] => Option.none

/-- Elements of a JSON array, after the opening bracket of a non-empty array
or after a comma. -/
def parseJElements : Nat → List PyVal → List Char → Option (PyVal × List Char)
  | 0, _, _ => Option.none
  | Nat.succ f, acc, cs0 =>
    match parseJValue f cs0 with
    | some (v, cs1) =>
      let acc2 := acc ++ [v]
      (match (cs1.dropWhile isJsonWs) with
       | ',' :: cs3 => parseJElements f acc2 cs3
       | d :: cs4 => if d = ']' then some (PyVal.list acc2, cs4) else Option.none
       | [] => Option.none)
    | Option.none => Option.none

end

/-- Models `json.loads` on a character list: one JSON value, with optional
surrounding whitespace and nothing else; `JSONDecodeError` otherwise. -/
def json_loadsL (cs : List Char) : Except PyErr PyVal :=
  match parseJValue (4 * cs.length + 16) cs with
  | some (v, rest) =>
    if rest.dropWhile isJsonWs = [] then Except.ok v else Except.error PyErr.jsonDecodeError
  | Option.none => Except.error PyErr.jsonDecodeError

/-! ### `_extract_json` -/

/-- Three backticks, the code-fence marker. -/
def fenceChars : List Char := "```".data

/-- `\w` of the fence-stripping regex (ASCII part; Unicode word characters are
not modelled and no claim involves them). -/
def isWordChar (c : Char) : Bool := c.isAlphanum || c = '_'

/-- Models `re.sub(r'^```\w*\n?', '', text)` under the guard
`text.startswith("```")`: drop the three backticks, a maximal run of word
characters (the fence language tag), and at most one newline. -/
def stripLeadingFenceL (cs : List Char) : List Char :=
  if cs.take 3 = fenceChars then
    if ((cs.drop 3).dropWhile isWordChar).take 1 = ['\n'] then
      ((cs.drop 3).dropWhile isWordChar).drop 1
    else (cs.drop 3).dropWhile isWordChar
  else cs

/-- Models `re.sub(r'\n?```$', '', text)` on already-stripped text (the input
was produced by `strip()`, so it cannot end in a newline and `$` is exactly
end-of-string): greedily drop a trailing `` ``` `` and at most one newline
before it. -/
def stripTrailingFenceL (cs : List Char) : List Char :=
  if cs.reverse.take 3 = fenceChars then
    (if (cs.reverse.drop 3).take 1 = ['\n'] then (cs.reverse.drop 3).drop 1
     else cs.reverse.drop 3).reverse
  else cs

/-- The value of the (rebound) `text` variable of `_extract_json` after
`text = text.strip()` and the fence-stripping branch. -/
def cleanTextL (cs : List Char) : List Char :=
  if (stripL cs).take 3 = fenceChars then
    stripTrailingFenceL (stripLeadingFenceL (stripL cs))
  else stripL cs

/-- Is `c` one of the two brace characters? -/
def isBrace (c : Char) : Bool := c = lbrace || c = rbrace

/-- Models `re.search(r'\{[^\x7b\x7d]*\}', text, re.DOTALL)`: the leftmost
substring consisting of a left brace, a run of non-brace characters and a
right brace. A left brace whose next brace is another left brace cannot start
a match, so the scan resumes from the characters after it. -/
def findBraceMatch : List Char → Option (List Char)
  | [] => Option.none
  | c :: rest =>
    if c = lbrace then
      if (rest.dropWhile (fun d => !isBrace d)).take 1 = [rbrace] then
        some (lbrace :: (rest.takeWhile (fun d => !isBrace d) ++ [rbrace]))
      else findBraceMatch rest
    else findBraceMatch rest

/-- `_extract_json`: strip the text, remove a code fence if present, try a
direct `json.loads`; on `JSONDecodeError` search that same (cleaned) text for
the first brace-delimited substring and try to parse it, and on any remaining
failure return the empty dict. -/
def extract_json (text : String) : Except PyErr PyVal :=
  match json_loadsL (cleanTextL text.data) with
  | Except.ok v => Except.ok v
  | Except.error _ =>
    match findBraceMatch (cleanTextL text.data) with
    | some m =>
      (match json_loadsL m with
       | Except.ok v => Except.ok v
       | Except.error _ => Except.ok (PyVal.dict []))
    | Option.none => Except.ok (PyVal.dict [])

/-! ### `_validate_parsed_task`, `_fallback_parse`, `parse_natural_language` -/

/-- `[p.value for p in Priority]` from `schemas.py`. -/
def valid_priorities : List String := ["low", "medium", "high", "urgent"]

/-- `[c.value for c in Category]` from `schemas.py`. -/
def valid_categories : List String :=
  ["work", "personal", "health", "finance", "learning", "errands", "other"]

/-- `_validate_parsed_task`: normalize a parsed mapping into the task shape.
Field expressions are evaluated in the order they appear in the returned dict
literal, so a failing title slice raises before the confidence coercion. -/
def validate_parsed_task (data : PyVal) : Except PyErr PyVal := do
  let t0 ← pyGet data "title" (PyVal.str "New Task")
  let title ← pySliceTo 255 t0
  let desc ← pyGet data "description" PyVal.none
  let p0 ← pyGet data "priority" PyVal.none
  let p1 ← pyGet data "priority" (PyVal.str "medium")
  let priority := if isStrIn p0 valid_priorities then p1 else PyVal.str "medium"
  let c0 ← pyGet data "category" PyVal.none
  let c1 ← pyGet data "category" (PyVal.str "other")
  let category := if isStrIn c0 valid_categories then c1 else PyVal.str "other"
  let due ← pyGet data "due_date" PyVal.none
  let conf0 ← pyGet data "confidence" (PyVal.num (1/2))
  let conf ← pyFloat conf0
  pure (PyVal.dict
    [("title", title), ("description", desc), ("priority", priority),
     ("category", category), ("due_date", due),
     ("confidence", pyFloatVal (pyMin2 (pyMax2 conf (PyFloat.finite 0)) (PyFloat.finite 1)))])

/-- `_fallback_parse`: the deterministic result used when the backend is
unavailable or the parse pipeline raised. -/
def fallback_parse (text : String) : PyVal :=
  PyVal.dict
    [("title", PyVal.str (strTake text 100)), ("description", PyVal.none),
     ("priority", PyVal.str "medium"), ("category", PyVal.str "other"),
     ("due_date", PyVal.none), ("confidence", PyVal.num (1/2))]

/-- The body of the `try` block of `parse_natural_language`: the backend call
(`response` holds the text it returned, or the exception it raised), JSON
extraction, and validation. -/
def parse_attempt (response : Except PyErr String) : Except PyErr PyVal := do
  let r ← response
  let j ← extract_json r
  validate_parsed_task j

/-- `parse_natural_language`: fall back when unavailable; otherwise run the
pipeline and convert any exception into the fallback result at the single
outer `except` boundary. -/
def parse_natural_language (available : Bool) (response : Except PyErr String)
    (text : String) : PyVal :=
  if available = false then fallback_parse text
  else
    match parse_attempt response with
    | Except.ok v => v
    | Except.error _ => fallback_parse text

/-! ### `prioritize_tasks` -/

/-- An input task as the prioritizer sees it: a dict with an `id`, a `title`
and whatever other fields; only the id drives the reordering. -/
structure Task where
  id : PyVal
  title : String
  extra : List (String × PyVal) := []

/-- Python `==` on hashable atoms (`None`, booleans, numbers — non-finite
floats included — and strings); used for dict-key lookup and membership,
where keys are hashable. Note Python's numeric cross-type equality
(`True == 1`, `1 == 1.0`) and that NaN is unequal to everything, itself
included. -/
def pyEqAtom : PyVal → PyVal → Bool
  | PyVal.none, PyVal.none => true
  | PyVal.nan, _ => false
  | _, PyVal.nan => false
  | PyVal.inf, PyVal.inf => true
  | PyVal.ninf, PyVal.ninf => true
  | PyVal.bool a, PyVal.bool b => a == b
  | PyVal.bool a, PyVal.num q => (if a then (1 : Rat) else 0) == q
  | PyVal.num q, PyVal.bool b => q == (if b then (1 : Rat) else 0)
  | PyVal.num a, PyVal.num b => a == b
  | PyVal.str a, PyVal.str b => a == b
  | _, _ => false

/-- May this value be a dict key? Lists and dicts are unhashable. -/
def isHashable : PyVal → Bool
  | PyVal.list _ => false
  | PyVal.dict _ => false
  | _ => true

/-- Lookup in `task_map = \x7bt["id"]: t for t in tasks\x7d`: the dict
comprehension lets a later task with the same id overwrite an earlier one, so
the binding is the last task whose id equals the key. -/
def dict_get (tasks : List Task) (tid : PyVal) : Option Task :=
  tasks.reverse.find? (fun t => pyEqAtom t.id tid)

/-- `[task_map[tid] for tid in order if tid in task_map]`: map each id the AI
returned to its task, skipping ids with no task. -/
def prioritized_from (tasks : List Task) (order : List PyVal) : List Task :=
  order.filterMap (fun tid => dict_get tasks tid)

/-- Iteration `for tid in order`: lists iterate their elements, strings their
characters, dicts their keys; other values raise `TypeError`. -/
def pyIter : PyVal → Except PyErr (List PyVal)
  | PyVal.list l => Except.ok l
  | PyVal.str s => Except.ok (s.data.map (fun c => PyVal.str (String.mk [c])))
  | PyVal.dict kvs => Except.ok (kvs.map (fun kv => PyVal.str kv.1))
  | _ => Except.error PyErr.typeError

/-- The result dict of `prioritize_tasks`. -/
structure PrioritizeResult where
  prioritized_tasks : List Task
  reasoning : PyVal

/-- The `try` block of `prioritize_tasks`: backend call, extraction, the
`order` lookup (defaulting to the input ids), the reordering comprehension
(building `task_map` raises `TypeError` if some id is unhashable, as does
hashing an unhashable id from `order`), and the `reasoning` lookup. -/
def prioritize_attempt (response : Except PyErr String) (tasks : List Task) :
    Except PyErr PrioritizeResult := do
  let r ← response
  let result ← extract_json r
  let order ← pyGet result "order" (PyVal.list (tasks.map Task.id))
  if (tasks.map Task.id).all isHashable = false then Except.error PyErr.typeError
  else do
    let orderList ← pyIter order
    if orderList.all isHashable = false then Except.error PyErr.typeError
    else do
      let reasoning ← pyGet result "reasoning" (PyVal.str "Prioritized by AI")
      pure ⟨prioritized_from tasks orderList, reasoning⟩

/-- `prioritize_tasks`: with the backend unavailable or an empty task list,
return the input order and the fixed message without touching the backend;
otherwise run the pipeline, converting any exception into the input order with
an `"Error: ..."` reasoning at the single outer `except` boundary. -/
def prioritize_tasks (available : Bool) (response : Except PyErr String)
    (tasks : List Task) : PrioritizeResult :=
  if available = false || tasks.isEmpty then
    ⟨tasks, PyVal.str "AI unavailable - using default order"⟩
  else
    match prioritize_attempt response tasks with
    | Except.ok res => res
    | Except.error e => ⟨tasks, PyVal.str ("Error: " ++ errMsg e)⟩

/-! ### `categorize_task` -/

/-- ASCII lowercasing, `str.lower()` (Unicode case mapping not modelled; the
category words are ASCII). -/
def pyLower (s : String) : String := String.mk (s.data.map Char.toLower)

/-- The normalization `categorize_task` applies to the backend's text:
`response.text.strip().lower()`, kept only if it is one of the seven category
values, `"other"` otherwise. -/
def normalizeCategory (s : String) : String :=
  if valid_categories.contains (pyLower (String.mk (stripL s.data))) then
    pyLower (String.mk (stripL s.data))
  else "other"

/-- `categorize_task`: `"other"` when unavailable or when the backend call
raised; otherwise the normalized response text. -/
def categorize_task (available : Bool) (response : Except PyErr String) : String :=
  if available = false then "other"
  else
    match response with
    | Except.ok r => normalizeCategory r
    | Except.error _ => "other"

/-! ### `_fallback_insights` -/

/-- The three tip strings of `_fallback_insights`, in source order. -/
def tipBreak : String := "Try breaking large tasks into smaller ones"

/-- Second conditional tip of `_fallback_insights`. -/
def tipUrgent : String := "You have many urgent tasks - consider reviewing priorities"

/-- The unconditional tip of `_fallback_insights`. -/
def tipAlways : String := "Consistent daily progress leads to success"

/-- The numeric view of a value, for comparisons: numbers (finite or not) and
booleans are numeric, everything else is not. -/
def asPyFloat? : PyVal → Option PyFloat
  | PyVal.num q => some (PyFloat.finite q)
  | PyVal.nan => some PyFloat.nan
  | PyVal.inf => some PyFloat.inf
  | PyVal.ninf => some PyFloat.ninf
  | PyVal.bool b => some (PyFloat.finite (if b then 1 else 0))
  | _ => Option.none

/-- Python `<` on values as `_fallback_insights` compares them: numbers and
booleans compare numerically (comparisons with NaN are `False`, not errors),
strings lexicographically, anything else raises `TypeError`. -/
def pyLt (a b : PyVal) : Except PyErr Bool :=
  match asPyFloat? a, asPyFloat? b with
  | some x, some y => Except.ok (pyFloatLt x y)
  | _, _ =>
    match a, b with
    | PyVal.str s, PyVal.str t => Except.ok (s < t)
    | _, _ => Except.error PyErr.typeError

/-- The `tips` list of `_fallback_insights`, built exactly in source order:
the breaking-tasks tip if `completion_rate < 0.5`, the urgent-review tip if
`by_priority.urgent > 3`, then always the consistency tip. -/
def insight_tips (stats : PyVal) : Except PyErr (List String) := do
  let cr ← pyGet stats "completion_rate" (PyVal.num 0)
  let lt ← pyLt cr (PyVal.num (1/2))
  let t1 : List String := if lt then [tipBreak] else []
  let bp ← pyGet stats "by_priority" (PyVal.dict [])
  let ug ← pyGet bp "urgent" (PyVal.num 0)
  let gt ← pyLt (PyVal.num 3) ug
  let t2 : List String := if gt then [tipUrgent] else []
  pure (t1 ++ t2 ++ [tipAlways])

/-- Round half to even, as Python's `format` rounds. The decimal value is
rounded exactly; artifacts of binary floating point are not modelled. -/
def roundHalfEven (q : Rat) : Int :=
  let f := q.floor
  let r := q - (f : Rat)
  if r < 1/2 then f else if 1/2 < r then f + 1 else if f % 2 = 0 then f else f + 1

/-- Models `format(v, '.0%')`: numbers and booleans format as a rounded
percentage (non-finite floats print their word forms); other values raise. -/
def formatPercent (v : PyVal) : Except PyErr String :=
  match v with
  | PyVal.num q => Except.ok (toString (roundHalfEven (q * 100)) ++ "%")
  | PyVal.nan => Except.ok "nan%"
  | PyVal.inf => Except.ok "inf%"
  | PyVal.ninf => Except.ok "-inf%"
  | PyVal.bool b => Except.ok (if b then "100%" else "0%")
  | _ => Except.error PyErr.typeError

/-- Models `str(v)` as used in the summary f-string for the `total` field:
integral numbers print as Python ints do. (Python's shortest-roundtrip float
repr is not modelled; no claim inspects a non-integral total.) -/
def pyStr (v : PyVal) : String :=
  match v with
  | PyVal.num q => if q.den = 1 then toString q.num else toString q
  | PyVal.nan => "nan"
  | PyVal.inf => "inf"
  | PyVal.ninf => "-inf"
  | PyVal.str s => s
  | PyVal.bool b => if b then "True" else "False"
  | PyVal.none => "None"
  | _ => ""

/-- `_fallback_insights`: the summary f-string and the tips list truncated to
its first three entries. -/
def fallback_insights (stats : PyVal) : Except PyErr PyVal := do
  let tips ← insight_tips stats
  let total ← pyGet stats "total" (PyVal.num 0)
  let cr ← pyGet stats "completion_rate" (PyVal.num 0)
  let pct ← formatPercent cr
  pure (PyVal.dict
    [("ai_summary", PyVal.str
       ("You have " ++ pyStr total ++ " tasks with a " ++ pct ++ " completion rate.")),
     ("ai_tips", PyVal.list ((tips.take 3).map PyVal.str))])

/-! ## Concrete fixtures used by the claim theorems -/

/-- A backend response whose `confidence` field cannot be coerced by `float`. -/
def badConfidenceResponse : String := "\x7b\"confidence\": \"not a number\"\x7d"

/-- A backend response whose `title` key is present but maps to `null`. -/
def nullTitleResponse : String := "\x7b\"title\": null\x7d"

/-! ## Claim theorems -/

set_option maxRecDepth 8000

/-- Claim C5: with the backend unavailable, `parse_natural_language` returns
exactly the record with the input text truncated to 100 characters as title,
no description, medium priority, other category, no due date and confidence
0.5 — for every input text and for every value the network call would have
produced (the response parameter is never consulted). -/
theorem parse_unavailable_fallback (response : Except PyErr String) (text : String) :
    parse_natural_language false response text =
      PyVal.dict
        [("title", PyVal.str (strTake text 100)), ("description", PyVal.none),
         ("priority", PyVal.str "medium"), ("category", PyVal.str "other"),
         ("due_date", PyVal.none), ("confidence", PyVal.num (1/2))] := rfl

/-- Claim C7: `prioritize_tasks` on the empty task list returns the empty
list with the fixed `"AI unavailable - using default order"` reasoning, for
both availability values and for every value the network call would have
produced (no backend call is made). -/
theorem prioritize_empty_list (available : Bool) (response : Except PyErr String) :
    prioritize_tasks available response [] =
      ⟨[], PyVal.str "AI unavailable - using default order"⟩ := by
  cases available <;> rfl

/-- Claim C2: every exception of the parse pipeline — the backend call, JSON
extraction or validation — is caught at the single outer boundary of
`parse_natural_language` and converted into the fallback parse; in particular
a response whose `confidence` is a non-numeric string (a `ValueError` inside
validation) gives exactly the same result as a network failure. -/
theorem parse_failures_fall_back :
    (∀ (response : Except PyErr String) (text : String) (e : PyErr),
        parse_attempt response = Except.error e →
        parse_natural_language true response text = fallback_parse text) ∧
    (∀ text : String,
        parse_natural_language true (Except.ok badConfidenceResponse) text =
          parse_natural_language true (Except.error PyErr.timeoutError) text) := by
  constructor
  · intro response text e h
    unfold parse_natural_language
    rw [h]
    rfl
  · intro text
    have h : parse_attempt (Except.ok badConfidenceResponse) =
        Except.error PyErr.valueError := by with_unfolding_all rfl
    unfold parse_natural_language
    rw [h]
    rfl

/-- Witness for C2 at a concrete network failure and input text. -/
theorem parse_failures_fall_back_witness :
    parse_attempt (Except.error PyErr.timeoutError) = Except.error PyErr.timeoutError ∧
    parse_natural_language true (Except.error PyErr.timeoutError) "call John tomorrow" =
      fallback_parse "call John tomorrow" :=
  ⟨rfl, parse_failures_fall_back.1 (Except.error PyErr.timeoutError)
    "call John tomorrow" PyErr.timeoutError rfl⟩

/-- Claim C10: a `title` key that is present but `null` makes
`_validate_parsed_task` raise (`None[:255]` is a `TypeError`), so
`parse_natural_language` returns the fallback result titled from the original
input text; the `"New Task"` default is used only when the key is absent
entirely. -/
theorem null_title_falls_back :
    (∀ kvs : List (String × PyVal), lookup kvs "title" = some PyVal.none →
        validate_parsed_task (PyVal.dict kvs) = Except.error PyErr.typeError) ∧
    (∀ text : String,
        parse_natural_language true (Except.ok nullTitleResponse) text = fallback_parse text) ∧
    validate_parsed_task (PyVal.dict []) = Except.ok (PyVal.dict
      [("title", PyVal.str "New Task"), ("description", PyVal.none),
       ("priority", PyVal.str "medium"), ("category", PyVal.str "other"),
       ("due_date", PyVal.none), ("confidence", PyVal.num (1/2))]) := by
  refine ⟨?_, ?_, by with_unfolding_all rfl⟩
  · intro kvs h
    unfold validate_parsed_task
    simp only [pyGet, h, Option.getD_some, pySliceTo]
    rfl
  · intro text
    have h : parse_attempt (Except.ok nullTitleResponse) =
        Except.error PyErr.typeError := by with_unfolding_all rfl
    unfold parse_natural_language
    rw [h]
    rfl

/-- Witness for C10 at a concrete mapping with a null title. -/
theorem null_title_falls_back_witness :
    lookup [("title", PyVal.none)] "title" = some PyVal.none ∧
    validate_parsed_task (PyVal.dict [("title", PyVal.none)]) =
      Except.error PyErr.typeError :=
  ⟨rfl, null_title_falls_back.1 [("title", PyVal.none)] rfl⟩

/-- Claim C3 (evaluation): `_extract_json` returns normally on every input,
but on the input `"42"` — which contains no JSON object — it returns the
decoded scalar `42`, not the empty mapping its `-> Dict` annotation promises. -/
theorem extract_json_total_and_scalar :
    (∀ s : String, ∃ v, extract_json s = Except.ok v) ∧
    extract_json "42" = Except.ok (PyVal.num 42) ∧
    PyVal.num 42 ≠ PyVal.dict [] := by
  refine ⟨?_, by with_unfolding_all rfl, by simp⟩
  intro s
  unfold extract_json
  cases hj : json_loadsL (cleanTextL s.data) with
  | ok v => exact ⟨v, rfl⟩
  | error e =>
    show ∃ v, (match findBraceMatch (cleanTextL s.data) with
      | some m =>
        (match json_loadsL m with
         | Except.ok v => Except.ok v
         | Except.error _ => Except.ok (PyVal.dict []))
      | Option.none => Except.ok (PyVal.dict [])) = Except.ok v
    cases hm : findBraceMatch (cleanTextL s.data) with
    | none => exact ⟨PyVal.dict [], rfl⟩
    | some m =>
      show ∃ v, (match json_loadsL m with
        | Except.ok v => Except.ok v
        | Except.error _ => Except.ok (PyVal.dict [])) = Except.ok v
      cases hj2 : json_loadsL m with
      | ok v => exact ⟨v, rfl⟩
      | error e2 => exact ⟨PyVal.dict [], rfl⟩

/-- Claim C9: the category normalization of `categorize_task` is idempotent —
every normalized category, `"other"` included, is a fixed point. -/
theorem normalize_category_idempotent (x : String) :
    normalizeCategory (normalizeCategory x) = normalizeCategory x := by
  have main : ∀ c ∈ valid_categories, normalizeCategory c = c := by
    intro c hc
    fin_cases hc <;> rfl
  have hx : normalizeCategory x ∈ valid_categories := by
    unfold normalizeCategory
    split
    · next h => exact List.mem_of_elem_eq_true h
    · simp [valid_categories]
  exact main _ hx

/-- Stats dicts of the shape `generate_insights` receives: a completion rate,
an urgent count under `by_priority`, and a total. -/
def statsOf (cr ug : Rat) (total : Int) : PyVal :=
  PyVal.dict
    [("completion_rate", PyVal.num cr),
     ("by_priority", PyVal.dict [("urgent", PyVal.num ug)]),
     ("total", PyVal.num (total : Rat))]

/-- Claim C6: the fallback-insights tips are emitted in exactly the order
breaking-tasks tip (when `completion_rate < 0.5`), urgent-review tip (when the
urgent count exceeds 3), then always the consistency tip, and the list is
truncated to its first 3 entries; with `completion_rate = 0.3` and urgent
count 5 the result is exactly those three tips in that order. -/
theorem fallback_insights_tips_order :
    (∀ (cr ug : Rat) (total : Int),
        fallback_insights (statsOf cr ug total) = Except.ok (PyVal.dict
          [("ai_summary", PyVal.str ("You have " ++ toString total ++ " tasks with a " ++
              toString (roundHalfEven (cr * 100)) ++ "% completion rate.")),
           ("ai_tips", PyVal.list
             ((((if cr < 1/2 then [tipBreak] else []) ++
                (if 3 < ug then [tipUrgent] else []) ++ [tipAlways]).take 3).map PyVal.str))])) ∧
    fallback_insights (statsOf (3/10) 5 10) = Except.ok (PyVal.dict
      [("ai_summary", PyVal.str "You have 10 tasks with a 30% completion rate."),
       ("ai_tips", PyVal.list [PyVal.str tipBreak, PyVal.str tipUrgent, PyVal.str tipAlways])]) := by
  refine ⟨?_, by with_unfolding_all rfl⟩
  intro cr ug total
  have h1 : insight_tips (statsOf cr ug total) = Except.ok
      ((if cr < 1/2 then [tipBreak] else []) ++
       (if 3 < ug then [tipUrgent] else []) ++ [tipAlways]) := by
    simp [insight_tips, statsOf, pyGet, lookup, List.find?, pyLt, asPyFloat?, pyFloatLt,
      bind, Except.bind, pure, Except.pure]
  unfold fallback_insights
  rw [h1]
  simp [statsOf, pyGet, lookup, List.find?, formatPercent, pyStr, bind, Except.bind,
    pure, Except.pure, Rat.den_intCast, Rat.num_intCast, String.append_assoc]

/-- Fixture task with id 1. -/
def taskA : Task := ⟨PyVal.num 1, "Task one", []⟩

/-- Fixture task with id 2. -/
def taskB : Task := ⟨PyVal.num 2, "Task two", []⟩

/-- Fixture task with id 3. -/
def taskC : Task := ⟨PyVal.num 3, "Task three", []⟩

/-- A backend response ordering ids 3 then 1 and omitting id 2. -/
def orderResponse : String := "\x7b\"order\": [3, 1], \"reasoning\": \"due dates\"\x7d"

/-- Claim C4: the prioritized list is built by mapping each id of the
AI-returned order to its input task — every emitted task is an input task
whose id occurs in the order, ids matching no input task are skipped, and an
input task whose id the order omits is absent from the result; concretely,
for input ids 1, 2, 3 and order `[3, 1]` the result is task 3 then task 1
with task 2 dropped. -/
theorem prioritize_order_mapping :
    (∀ (tasks : List Task) (order : List PyVal) (t : Task),
        t ∈ prioritized_from tasks order →
        t ∈ tasks ∧ ∃ tid ∈ order, pyEqAtom t.id tid = true) ∧
    (∀ (tasks : List Task) (order : List PyVal) (t : Task),
        t ∈ tasks → (∀ tid ∈ order, pyEqAtom t.id tid = false) →
        t ∉ prioritized_from tasks order) ∧
    prioritize_tasks true (Except.ok orderResponse) [taskA, taskB, taskC] =
      ⟨[taskC, taskA], PyVal.str "due dates"⟩ := by
  have mem_lemma : ∀ (tasks : List Task) (order : List PyVal) (t : Task),
      t ∈ prioritized_from tasks order →
      t ∈ tasks ∧ ∃ tid ∈ order, pyEqAtom t.id tid = true := by
    intro tasks order t ht
    rw [prioritized_from, List.mem_filterMap] at ht
    obtain ⟨tid, htid, hfind⟩ := ht
    unfold dict_get at hfind
    have hp := List.find?_some hfind
    exact ⟨List.mem_reverse.mp (List.mem_of_find?_eq_some hfind), tid, htid, hp⟩
  refine ⟨mem_lemma, ?_, by with_unfolding_all rfl⟩
  intro tasks order t _ hnone hmem
  obtain ⟨-, tid, htid, heq⟩ := mem_lemma tasks order t hmem
  rw [hnone tid htid] at heq
  exact Bool.false_ne_true heq

/-- Witness for C4: task 2 is an input task, matches no id of the order
`[3, 1]`, and is absent from the reordered result. -/
theorem prioritize_order_mapping_witness :
    taskB ∈ [taskA, taskB, taskC] ∧
    (∀ tid ∈ [PyVal.num 3, PyVal.num 1], pyEqAtom taskB.id tid = false) ∧
    taskB ∉ prioritized_from [taskA, taskB, taskC] [PyVal.num 3, PyVal.num 1] := by
  refine ⟨by simp, ?_, ?_⟩
  · intro tid htid
    fin_cases htid <;> with_unfolding_all rfl
  · exact prioritize_order_mapping.2.1 [taskA, taskB, taskC] [PyVal.num 3, PyVal.num 1]
      taskB (by simp)
      (by intro tid htid; fin_cases htid <;> with_unfolding_all rfl)

/-- On finite floats, CPython's `max(f, 0)` is the rational maximum. -/
lemma pyMax2_finite (q : Rat) :
    pyMax2 (PyFloat.finite q) (PyFloat.finite 0) = PyFloat.finite (max q 0) := by
  simp only [pyMax2, pyFloatLt]
  by_cases h : q < 0
  · rw [if_pos (by simpa using h), max_eq_right h.le]
  · rw [if_neg (by simpa using h), max_eq_left (not_lt.mp h)]

/-- On finite floats, CPython's `min(x, 1)` is the rational minimum. -/
lemma pyMin2_finite (x : Rat) :
    pyMin2 (PyFloat.finite x) (PyFloat.finite 1) = PyFloat.finite (min x 1) := by
  simp only [pyMin2, pyFloatLt]
  by_cases h : 1 < x
  · rw [if_pos (by simpa using h), min_eq_right h.le]
  · rw [if_neg (by simpa using h), min_eq_left (not_lt.mp h)]

/-- The confidence clamp `min(max(f, 0), 1)` of any float is either NaN —
which survives both `max` and `min` because every comparison with it is
`False` — or a rational in [0, 1] (infinities clamp to the bounds). -/
lemma pyClamp_cases (f : PyFloat) :
    pyFloatVal (pyMin2 (pyMax2 f (PyFloat.finite 0)) (PyFloat.finite 1)) = PyVal.nan ∨
    ∃ q : Rat, pyFloatVal (pyMin2 (pyMax2 f (PyFloat.finite 0)) (PyFloat.finite 1)) =
      PyVal.num q ∧ 0 ≤ q ∧ q ≤ 1 := by
  cases f with
  | finite q =>
    right
    refine ⟨min (max q 0) 1, ?_, le_min (le_max_right _ _) (by norm_num), min_le_right _ _⟩
    rw [pyMax2_finite, pyMin2_finite]
    rfl
  | nan => left; rfl
  | inf =>
    right
    exact ⟨1, by with_unfolding_all rfl, by norm_num, le_refl 1⟩
  | ninf =>
    right
    exact ⟨0, by with_unfolding_all rfl, le_refl 0, by norm_num⟩

/-- The computed shape of a successful `_validate_parsed_task` run on a dict:
the two fallible steps (title slice and confidence coercion) succeeded and the
result is the literal dict of the source. -/
lemma validate_dict_form (kvs : List (String × PyVal)) (v : PyVal)
    (h : validate_parsed_task (PyVal.dict kvs) = Except.ok v) :
    ∃ (title : PyVal) (conf : PyFloat),
      pySliceTo 255 ((lookup kvs "title").getD (PyVal.str "New Task")) = Except.ok title ∧
      pyFloat ((lookup kvs "confidence").getD (PyVal.num (1/2))) = Except.ok conf ∧
      v = PyVal.dict
        [("title", title),
         ("description", (lookup kvs "description").getD PyVal.none),
         ("priority", if isStrIn ((lookup kvs "priority").getD PyVal.none) valid_priorities
            then (lookup kvs "priority").getD (PyVal.str "medium") else PyVal.str "medium"),
         ("category", if isStrIn ((lookup kvs "category").getD PyVal.none) valid_categories
            then (lookup kvs "category").getD (PyVal.str "other") else PyVal.str "other"),
         ("due_date", (lookup kvs "due_date").getD PyVal.none),
         ("confidence", pyFloatVal (pyMin2 (pyMax2 conf (PyFloat.finite 0))
            (PyFloat.finite 1)))] := by
  unfold validate_parsed_task at h
  simp only [pyGet, bind, Except.bind, pure, Except.pure] at h
  cases hsl : pySliceTo 255 ((lookup kvs "title").getD (PyVal.str "New Task")) with
  | error e => rw [hsl] at h; simp at h
  | ok title =>
    rw [hsl] at h
    cases hfl : pyFloat ((lookup kvs "confidence").getD (PyVal.num (1/2))) with
    | error e => rw [hfl] at h; simp at h
    | ok conf =>
      rw [hfl] at h
      simp at h
      exact ⟨title, conf, rfl, rfl, h.symm⟩

/-- The guarded default pattern of the validator always lands in the valid
list: either the looked-up value is a string of the list, or the default. -/
lemma if_valid_field (kvs : List (String × PyVal)) (k d : String) (l : List String)
    (hd : d ∈ l) :
    ∃ s ∈ l, (if isStrIn ((lookup kvs k).getD PyVal.none) l
        then (lookup kvs k).getD (PyVal.str d) else PyVal.str d) = PyVal.str s := by
  by_cases hin : isStrIn ((lookup kvs k).getD PyVal.none) l = true
  · cases hl : lookup kvs k with
    | none =>
      rw [hl] at hin
      simp [isStrIn] at hin
    | some x =>
      rw [hl] at hin
      simp only [Option.getD_some] at hin
      cases x <;> simp [isStrIn] at hin
      next s =>
        refine ⟨s, hin, ?_⟩
        simp [isStrIn, hin]
  · refine ⟨d, hd, ?_⟩
    rw [if_neg hin]

/-- A successful slice has length at most the slice bound. -/
lemma pySliceTo_ok_len {n : Nat} {v w : PyVal} (h : pySliceTo n v = Except.ok w) :
    pyLen w ≤ n := by
  cases v <;> simp [pySliceTo] at h
  case str s =>
    subst h
    simp [pyLen, strTake]
  case list l =>
    subst h
    simp [pyLen]

/-- The output-domain invariant of the validator: a task-shaped dict whose
priority and category are in the enumerated sets, whose confidence is either
a rational in [0, 1] or NaN (which passes through the clamp), and whose title
has length at most 255. -/
def resultInDomains (v : PyVal) : Prop :=
  ∃ (title desc due conf : PyVal) (pr cat : String),
    v = PyVal.dict
      [("title", title), ("description", desc), ("priority", PyVal.str pr),
       ("category", PyVal.str cat), ("due_date", due), ("confidence", conf)] ∧
    pr ∈ valid_priorities ∧ cat ∈ valid_categories ∧
    ((∃ q : Rat, conf = PyVal.num q ∧ 0 ≤ q ∧ q ≤ 1) ∨ conf = PyVal.nan) ∧
    pyLen title ≤ 255

/-- Counterexamples to C1 as stated. First, a confidence of 2 is outside the
declared [0, 1] domain, yet the validator returns confidence 1 — the clamp to
the nearer bound — and not the 0.5 default the claim says replaces
out-of-domain confidence values. Second, on confidence `"nan"` the validator
returns normally with confidence NaN (`float("nan")` is NaN and NaN survives
`min(max(·, 0), 1)`), which is not a rational in [0, 1] and not 0.5. -/
theorem validate_confidence_clamped_not_defaulted :
    (validate_parsed_task (PyVal.dict [("confidence", PyVal.num 2)]) = Except.ok (PyVal.dict
      [("title", PyVal.str "New Task"), ("description", PyVal.none),
       ("priority", PyVal.str "medium"), ("category", PyVal.str "other"),
       ("due_date", PyVal.none), ("confidence", PyVal.num 1)]) ∧
     ¬ ((0:Rat) ≤ 2 ∧ (2:Rat) ≤ 1) ∧ PyVal.num 1 ≠ PyVal.num (1/2)) ∧
    (validate_parsed_task (PyVal.dict [("confidence", PyVal.str "nan")]) = Except.ok (PyVal.dict
      [("title", PyVal.str "New Task"), ("description", PyVal.none),
       ("priority", PyVal.str "medium"), ("category", PyVal.str "other"),
       ("due_date", PyVal.none), ("confidence", PyVal.nan)]) ∧
     ∀ q : Rat, PyVal.nan ≠ PyVal.num q) := by
  refine ⟨⟨by with_unfolding_all rfl, by norm_num, ?_⟩,
    by with_unfolding_all rfl, fun q hc => PyVal.noConfusion hc⟩
  intro hc
  rw [PyVal.num.injEq] at hc
  norm_num at hc

/-- Claim C1 (amended): whenever `_validate_parsed_task` returns normally its
result is within the declared domains except for NaN — priority and category
in their enumerated sets, title length at most 255, and confidence either a
number in [0, 1] or NaN, which `float` can produce and the `min`/`max` clamp
passes through; a missing or out-of-domain priority or category is replaced
by `"medium"` or `"other"`, a missing confidence defaults to 0.5, a present
finite confidence is clamped into [0, 1] rather than replaced, and a NaN
confidence propagates to the result. -/
theorem validate_output_domains :
    (∀ (data v : PyVal), validate_parsed_task data = Except.ok v → resultInDomains v) ∧
    (∀ (kvs : List (String × PyVal)) (v : PyVal),
        validate_parsed_task (PyVal.dict kvs) = Except.ok v →
        ∃ kvs2, v = PyVal.dict kvs2 ∧
          (isStrIn ((lookup kvs "priority").getD PyVal.none) valid_priorities = false →
            lookup kvs2 "priority" = some (PyVal.str "medium")) ∧
          (isStrIn ((lookup kvs "category").getD PyVal.none) valid_categories = false →
            lookup kvs2 "category" = some (PyVal.str "other")) ∧
          (lookup kvs "confidence" = Option.none →
            lookup kvs2 "confidence" = some (PyVal.num (1/2))) ∧
          (∀ q : Rat, lookup kvs "confidence" = some (PyVal.num q) →
            lookup kvs2 "confidence" = some (PyVal.num (min (max q 0) 1))) ∧
          (lookup kvs "confidence" = some PyVal.nan →
            lookup kvs2 "confidence" = some PyVal.nan)) := by
  constructor
  · intro data v h
    cases data
    case dict kvs =>
      obtain ⟨title, conf, hsl, hfl, hv⟩ := validate_dict_form kvs v h
      obtain ⟨pr, hprmem, hpr⟩ := if_valid_field kvs "priority" "medium" valid_priorities
        (by simp [valid_priorities])
      obtain ⟨cat, hcatmem, hcat⟩ := if_valid_field kvs "category" "other" valid_categories
        (by simp [valid_categories])
      refine ⟨title, (lookup kvs "description").getD PyVal.none,
        (lookup kvs "due_date").getD PyVal.none,
        pyFloatVal (pyMin2 (pyMax2 conf (PyFloat.finite 0)) (PyFloat.finite 1)),
        pr, cat, ?_, hprmem, hcatmem, ?_, pySliceTo_ok_len hsl⟩
      · rw [hv, hpr, hcat]
      · rcases pyClamp_cases conf with hc | ⟨q, hq, h0, h1⟩
        · exact Or.inr hc
        · exact Or.inl ⟨q, hq, h0, h1⟩
    all_goals (unfold validate_parsed_task at h; simp [pyGet, bind, Except.bind] at h)
  · intro kvs v h
    obtain ⟨title, conf, hsl, hfl, hv⟩ := validate_dict_form kvs v h
    refine ⟨_, hv, ?_, ?_, ?_, ?_, ?_⟩
    · intro hno
      simp only [lookup] at hno
      simp [lookup, List.find?, hno]
    · intro hno
      simp only [lookup] at hno
      simp [lookup, List.find?, hno]
    · intro hno
      rw [hno] at hfl
      simp [pyFloat] at hfl
      simp [lookup, List.find?, ← hfl, pyMax2_finite, pyMin2_finite, pyFloatVal]
      norm_num
    · intro q hq
      rw [hq] at hfl
      simp [pyFloat] at hfl
      simp [lookup, List.find?, ← hfl, pyMax2_finite, pyMin2_finite, pyFloatVal]
    · intro hq
      rw [hq] at hfl
      simp [pyFloat] at hfl
      simp [lookup, List.find?, ← hfl, pyMax2, pyMin2, pyFloatLt, pyFloatVal]

/-- Input fixture for the C1 witness: a valid title, a priority outside the
enumerated set, and an out-of-range confidence. -/
def dataC1 : PyVal := PyVal.dict
  [("title", PyVal.str "Buy milk"), ("priority", PyVal.str "someday"),
   ("confidence", PyVal.num 2)]

/-- Witness for C1 (amended) at a concrete malformed mapping. -/
theorem validate_output_domains_witness :
    validate_parsed_task dataC1 = Except.ok (PyVal.dict
      [("title", PyVal.str "Buy milk"), ("description", PyVal.none),
       ("priority", PyVal.str "medium"), ("category", PyVal.str "other"),
       ("due_date", PyVal.none), ("confidence", PyVal.num 1)]) ∧
    resultInDomains (PyVal.dict
      [("title", PyVal.str "Buy milk"), ("description", PyVal.none),
       ("priority", PyVal.str "medium"), ("category", PyVal.str "other"),
       ("due_date", PyVal.none), ("confidence", PyVal.num 1)]) :=
  ⟨by with_unfolding_all rfl,
   validate_output_domains.1 dataC1 _ (by with_unfolding_all rfl)⟩

/-- Dropping a satisfied prefix continues into the second list. -/
lemma dropWhile_append_all {α} (p : α → Bool) (l₁ l₂ : List α)
    (h : ∀ a ∈ l₁, p a = true) :
    (l₁ ++ l₂).dropWhile p = l₂.dropWhile p := by
  induction l₁ with
  | nil => rfl
  | cons a l ih =>
    have ha := h a (List.mem_cons_self a l)
    simp only [List.cons_append, List.dropWhile_cons, ha, if_true]
    exact ih (fun b hb => h b (List.mem_cons_of_mem _ hb))

/-- When the first list already contains a failing element, `dropWhile` of the
concatenation stops inside it. -/
lemma dropWhile_append_first {α} (p : α → Bool) (l₁ l₂ : List α)
    (hne : l₁.dropWhile p ≠ []) :
    (l₁ ++ l₂).dropWhile p = l₁.dropWhile p ++ l₂ := by
  induction l₁ with
  | nil => simp at hne
  | cons a l ih =>
    by_cases hp : p a = true
    · simp only [List.dropWhile_cons, hp, if_true] at hne ⊢
      simp only [List.cons_append, List.dropWhile_cons, hp, if_true]
      exact ih hne
    · simp only [List.cons_append, List.dropWhile_cons, hp]
      simp [hp]

/-- When the first list already contains a failing element, `takeWhile` of the
concatenation is `takeWhile` of the first list. -/
lemma takeWhile_append_first {α} (p : α → Bool) (l₁ l₂ : List α)
    (hne : l₁.dropWhile p ≠ []) :
    (l₁ ++ l₂).takeWhile p = l₁.takeWhile p := by
  induction l₁ with
  | nil => simp at hne
  | cons a l ih =>
    by_cases hp : p a = true
    · simp only [List.dropWhile_cons, hp, if_true] at hne
      simp only [List.cons_append, List.takeWhile_cons, hp, if_true]
      rw [ih hne]
    · simp only [List.cons_append, List.takeWhile_cons, hp]
      simp [hp]

/-- A prefix without left braces cannot start or shift a match. -/
lemma findBraceMatch_append_left (pre mid : List Char) (h : ∀ c ∈ pre, c ≠ lbrace) :
    findBraceMatch (pre ++ mid) = findBraceMatch mid := by
  induction pre with
  | nil => rfl
  | cons c p ih =>
    have hc : c ≠ lbrace := h c (List.mem_cons_self c p)
    simp only [List.cons_append, findBraceMatch, if_neg hc]
    exact ih (fun d hd => h d (List.mem_cons_of_mem _ hd))

/-- A list without left braces has no match. -/
lemma findBraceMatch_none (l : List Char) (h : ∀ c ∈ l, c ≠ lbrace) :
    findBraceMatch l = Option.none := by
  have := findBraceMatch_append_left l [] h
  rwa [List.append_nil] at this

/-- A suffix without braces cannot create, destroy or change the first
match: it contains no closing brace to complete one. -/
lemma findBraceMatch_append_right (mid suf : List Char)
    (h : ∀ c ∈ suf, isBrace c = false) :
    findBraceMatch (mid ++ suf) = findBraceMatch mid := by
  induction mid with
  | nil =>
    simp only [List.nil_append]
    exact findBraceMatch_none suf (fun c hc => by
      intro he
      rw [he] at hc
      have := h _ hc
      simp [isBrace] at this)
  | cons c rest ih =>
    by_cases hc : c = lbrace
    · subst hc
      simp only [List.cons_append, findBraceMatch, eq_self_iff_true, if_true, List.append_eq]
      cases hdw : rest.dropWhile (fun d => !isBrace d) with
      | nil =>
        have hall : ∀ a ∈ rest, (!isBrace a) = true := List.dropWhile_eq_nil_iff.mp hdw
        have h2 : (rest ++ suf).dropWhile (fun d => !isBrace d) = [] := by
          rw [dropWhile_append_all _ _ _ hall, List.dropWhile_eq_nil_iff]
          intro a ha
          simp [h a ha]
        rw [h2]
        simp only [List.take_nil]
        rw [if_neg (by simp), if_neg (by simp)]
        exact ih
      | cons d tail =>
        have h2 : (rest ++ suf).dropWhile (fun d => !isBrace d) = d :: (tail ++ suf) := by
          rw [dropWhile_append_first _ _ _ (by rw [hdw]; simp), hdw]
          rfl
        rw [h2]
        by_cases hd : d = rbrace
        · subst hd
          rw [if_pos (by simp), if_pos (by simp)]
          have h3 : (rest ++ suf).takeWhile (fun d => !isBrace d) =
              rest.takeWhile (fun d => !isBrace d) :=
            takeWhile_append_first _ _ _ (by rw [hdw]; simp)
          rw [h3]
        · have hne : ¬ ((d :: (tail ++ suf)).take 1 = [rbrace]) := by simp [hd]
          have hne2 : ¬ ((d :: tail).take 1 = [rbrace]) := by simp [hd]
          rw [if_neg hne, if_neg hne2]
          exact ih
    · simp only [List.cons_append, findBraceMatch, if_neg hc]
      exact ih

/-- `strip()` removes a whitespace prefix and suffix. -/
lemma stripL_decomp (cs : List Char) :
    ∃ pre suf, cs = pre ++ stripL cs ++ suf ∧
      (∀ c ∈ pre, isPyWs c = true) ∧ (∀ c ∈ suf, isPyWs c = true) := by
  refine ⟨cs.takeWhile isPyWs, ((cs.dropWhile isPyWs).reverse.takeWhile isPyWs).reverse,
    ?_, ?_, ?_⟩
  · conv_lhs => rw [← List.takeWhile_append_dropWhile (p := isPyWs) (l := cs)]
    rw [List.append_assoc]
    congr 1
    conv_lhs => rw [← List.reverse_reverse (cs.dropWhile isPyWs),
      ← List.takeWhile_append_dropWhile (p := isPyWs) (l := (cs.dropWhile isPyWs).reverse)]
    rw [List.reverse_append]
    rfl
  · exact fun c hc => List.mem_takeWhile_imp hc
  · intro c hc
    rw [List.mem_reverse] at hc
    exact List.mem_takeWhile_imp hc

/-- The leading-fence removal deletes a prefix of backticks, word characters
and at most one newline — none of which is a left brace. -/
lemma stripLeadingFenceL_decomp (t : List Char) (hf : t.take 3 = fenceChars) :
    ∃ pre, t = pre ++ stripLeadingFenceL t ∧ (∀ c ∈ pre, c ≠ lbrace) := by
  unfold stripLeadingFenceL
  rw [if_pos hf]
  have hsplit : t = fenceChars ++ ((t.drop 3).takeWhile isWordChar ++
      (t.drop 3).dropWhile isWordChar) := by
    conv_lhs => rw [← List.take_append_drop 3 t, hf]
    rw [List.takeWhile_append_dropWhile]
  by_cases hn : ((t.drop 3).dropWhile isWordChar).take 1 = ['\n']
  · rw [if_pos hn]
    refine ⟨fenceChars ++ (t.drop 3).takeWhile isWordChar ++ ['\n'], ?_, ?_⟩
    · conv_lhs => rw [hsplit]
      conv_lhs => rw [← List.take_append_drop 1 ((t.drop 3).dropWhile isWordChar), hn]
      simp [List.append_assoc]
    · intro c hc
      simp only [List.append_assoc, List.mem_append] at hc
      rcases hc with hc | hc | hc
      · revert c
        decide
      · intro he
        subst he
        exact absurd (List.mem_takeWhile_imp hc) (by decide)
      · simp at hc
        subst hc
        decide
  · rw [if_neg hn]
    refine ⟨fenceChars ++ (t.drop 3).takeWhile isWordChar, ?_, ?_⟩
    · conv_lhs => rw [hsplit]
      simp [List.append_assoc]
    · intro c hc
      simp only [List.mem_append] at hc
      rcases hc with hc | hc
      · revert c
        decide
      · intro he
        subst he
        exact absurd (List.mem_takeWhile_imp hc) (by decide)

/-- The trailing-fence removal deletes a suffix of backticks and at most one
newline — no braces among them. -/
lemma stripTrailingFenceL_decomp (t : List Char) :
    ∃ suf, t = stripTrailingFenceL t ++ suf ∧ (∀ c ∈ suf, isBrace c = false) := by
  unfold stripTrailingFenceL
  by_cases hf : t.reverse.take 3 = fenceChars
  · rw [if_pos hf]
    have ht : t = (t.reverse.drop 3).reverse ++ fenceChars := by
      have h1 : t.reverse = fenceChars ++ t.reverse.drop 3 := by
        conv_lhs => rw [← List.take_append_drop 3 t.reverse, hf]
      have h2 := congrArg List.reverse h1
      rw [List.reverse_reverse, List.reverse_append] at h2
      have h3 : fenceChars.reverse = fenceChars := by decide
      rw [h3] at h2
      exact h2
    by_cases hn : (t.reverse.drop 3).take 1 = ['\n']
    · rw [if_pos hn]
      have hR : (t.reverse.drop 3).reverse =
          ((t.reverse.drop 3).drop 1).reverse ++ ['\n'] := by
        conv_lhs => rw [← List.take_append_drop 1 (t.reverse.drop 3), hn]
        rw [List.reverse_append]
        rfl
      refine ⟨'\n' :: fenceChars, ?_, by decide⟩
      calc t = (t.reverse.drop 3).reverse ++ fenceChars := ht
        _ = ((t.reverse.drop 3).drop 1).reverse ++ ['\n'] ++ fenceChars := by rw [hR]
        _ = ((t.reverse.drop 3).drop 1).reverse ++ ('\n' :: fenceChars) := by
            simp [List.append_assoc]
    · rw [if_neg hn]
      exact ⟨fenceChars, ht, by decide⟩
  · rw [if_neg hf]
    exact ⟨[], by simp, by simp⟩

/-- Whitespace is not a left brace. -/
lemma ws_not_lbrace {c : Char} (h : isPyWs c = true) : c ≠ lbrace := by
  intro he
  subst he
  exact absurd h (by decide)

/-- Whitespace is not a brace. -/
lemma ws_not_brace {c : Char} (h : isPyWs c = true) : isBrace c = false := by
  simp only [isPyWs, Bool.or_eq_true, decide_eq_true_eq] at h
  rcases h with ((((h | h) | h) | h) | h) | h <;> subst h <;> decide

/-- The cleaned text is the original minus a brace-free prefix (whitespace and
the leading fence) and a brace-free suffix (the trailing fence and
whitespace). -/
lemma cleanTextL_decomp (cs : List Char) :
    ∃ pre suf, cs = pre ++ cleanTextL cs ++ suf ∧
      (∀ c ∈ pre, c ≠ lbrace) ∧ (∀ c ∈ suf, isBrace c = false) := by
  obtain ⟨p1, s1, h1, hp1, hs1⟩ := stripL_decomp cs
  unfold cleanTextL
  by_cases hf : (stripL cs).take 3 = fenceChars
  · rw [if_pos hf]
    obtain ⟨p2, h2, hp2⟩ := stripLeadingFenceL_decomp (stripL cs) hf
    obtain ⟨s3, h3, hs3⟩ := stripTrailingFenceL_decomp (stripLeadingFenceL (stripL cs))
    refine ⟨p1 ++ p2, s3 ++ s1, ?_, ?_, ?_⟩
    · calc cs = p1 ++ stripL cs ++ s1 := h1
        _ = p1 ++ (p2 ++ stripLeadingFenceL (stripL cs)) ++ s1 :=
            congrArg (fun x => p1 ++ x ++ s1) h2
        _ = p1 ++ (p2 ++ (stripTrailingFenceL (stripLeadingFenceL (stripL cs)) ++ s3)) ++ s1 :=
            congrArg (fun x => p1 ++ (p2 ++ x) ++ s1) h3
        _ = (p1 ++ p2) ++ stripTrailingFenceL (stripLeadingFenceL (stripL cs)) ++ (s3 ++ s1) := by
            simp [List.append_assoc]
    · intro c hc
      rcases List.mem_append.mp hc with hc | hc
      · exact ws_not_lbrace (hp1 c hc)
      · exact hp2 c hc
    · intro c hc
      rcases List.mem_append.mp hc with hc | hc
      · exact hs3 c hc
      · exact ws_not_brace (hs1 c hc)
  · rw [if_neg hf]
    exact ⟨p1, s1, h1, fun c hc => ws_not_lbrace (hp1 c hc),
      fun c hc => ws_not_brace (hs1 c hc)⟩

/-- Modelled from the claim's words, for the refinement comparison: identical
to `extract_json` except that the fallback brace search runs on the original
input text as received, before stripping and fence removal. -/
def extract_json_spec (text : String) : Except PyErr PyVal :=
  match json_loadsL (cleanTextL text.data) with
  | Except.ok v => Except.ok v
  | Except.error _ =>
    match findBraceMatch text.data with
    | some m =>
      (match json_loadsL m with
       | Except.ok v => Except.ok v
       | Except.error _ => Except.ok (PyVal.dict []))
    | Option.none => Except.ok (PyVal.dict [])

/-- Claim C8: when the direct parse of the cleaned text fails, the first
brace-delimited object-pattern substring of the original input text (as
received, before fence stripping) is the same substring the code finds in the
cleaned text — stripping removes no braces — so the variant that searches the
original text is equal to `_extract_json` on every input, and the parsed
substring is the first brace-delimited substring of the original text. -/
theorem extract_fallback_search_original (s : String) :
    findBraceMatch s.data = findBraceMatch (cleanTextL s.data) ∧
    extract_json_spec s = extract_json s := by
  obtain ⟨pre, suf, hdecomp, hpre, hsuf⟩ := cleanTextL_decomp s.data
  have hkey : findBraceMatch s.data = findBraceMatch (cleanTextL s.data) := by
    calc findBraceMatch s.data
        = findBraceMatch (pre ++ (cleanTextL s.data ++ suf)) := by
          conv_lhs => rw [hdecomp]
          rw [List.append_assoc]
      _ = findBraceMatch (cleanTextL s.data ++ suf) := findBraceMatch_append_left _ _ hpre
      _ = findBraceMatch (cleanTextL s.data) := findBraceMatch_append_right _ _ hsuf
  refine ⟨hkey, ?_⟩
  unfold extract_json_spec extract_json
  rw [hkey]

end AITask
